import Mathlib

/-!
Verification of the scoring engine of `bin/dynamic_challenge_score.py`
(nf-synapse-challenge).

The Python module is embedded shallowly:

* numeric arrays (`numpy.ndarray`, 2-D) become functions `ℕ → ℕ → ℝ`
  together with explicit dimensions `m` (rows) and `n` (columns); every
  definition only ever reads indices inside the declared dimensions;
* `np.linalg.norm(A, 2)` on a 2-D array is the largest singular value of
  `A`, i.e. the `ℓ² → ℓ²` operator norm of the induced linear map, embedded
  as `spnorm` below via the operator norm on Euclidean spaces;
* `np.linalg.norm(v, 2)` on a 1-D array is the plain Euclidean norm,
  embedded as an explicit `Real.sqrt` of a sum of squares;
* `np.fft.fft` / `np.fft.fft2` are the standard discrete Fourier transforms
  `X k = ∑ j, x j * exp (-2πi·j·k/n)`, over `ℂ`;
* Python code that can raise returns `Except String α`; the message records
  the Python exception class;
* filesystem interactions of `calculate_all_scores` (`os.listdir`,
  `os.path.exists`, `np.load`) are passed in as explicit parameters
  (a file list, an existence predicate, a loader) so the function itself
  is a pure program over those inputs.
-/

namespace NfSynapse

open Finset

/-- Status constant `INVALID` from `dynamic_challenge_score.py` line 14. -/
def INVALID : String := "INVALID"

/-- Status constant `SCORED` from `dynamic_challenge_score.py` line 15. -/
def SCORED : String := "SCORED"

/-- A numpy 2-D array: row count, column count, and entries.  Entries are
read only at indices below the dimensions. -/
structure NArr where
  m : ℕ
  n : ℕ
  val : ℕ → ℕ → ℝ

/-- The linear map `x ↦ A.mulVec x` between Euclidean spaces induced by the
top-left `m × n` block of `A`.  This is the map whose operator norm is the
largest singular value returned by `np.linalg.norm(A, 2)` on a 2-D array. -/
noncomputable def mulVecLin (m n : ℕ) (A : ℕ → ℕ → ℝ) :
    EuclideanSpace ℝ (Fin n) →ₗ[ℝ] EuclideanSpace ℝ (Fin m) where
  toFun x := fun i : Fin m => ∑ j : Fin n, A i.val j.val * x j
  map_add' x y := by
    funext i
    show (∑ j : Fin n, A i.val j.val * (x j + y j)) =
      (∑ j : Fin n, A i.val j.val * x j) + ∑ j : Fin n, A i.val j.val * y j
    simp [mul_add, Finset.sum_add_distrib]
  map_smul' c x := by
    funext i
    show (∑ j : Fin n, A i.val j.val * (c * x j)) =
      c * ∑ j : Fin n, A i.val j.val * x j
    rw [Finset.mul_sum]
    exact Finset.sum_congr rfl fun j _ => by ring

/-- The continuous linear map version of `mulVecLin` (the domain is finite
dimensional, so the map is automatically continuous). -/
noncomputable def mulVecCLM (m n : ℕ) (A : ℕ → ℕ → ℝ) :
    EuclideanSpace ℝ (Fin n) →L[ℝ] EuclideanSpace ℝ (Fin m) :=
  LinearMap.toContinuousLinearMap (mulVecLin m n A)

/-- Embedding of `np.linalg.norm(A, 2)` for a 2-D array `A` of shape
`m × n`: the largest singular value of `A`, i.e. the `ℓ²→ℓ²` operator
norm. -/
noncomputable def spnorm (m n : ℕ) (A : ℕ → ℕ → ℝ) : ℝ :=
  norm (mulVecCLM m n A)

/-- Embedding of `np.linalg.norm(v, 2)` for a 1-D array `v` of length `n`:
the Euclidean norm. -/
noncomputable def vnorm (n : ℕ) (v : ℕ → ℝ) : ℝ :=
  Real.sqrt (∑ b in Finset.range n, (v b) ^ 2)

/-- Embedding of `np.histogram(x, bins=e)[0]` with integer bin edges
`lo, lo+1, …, lo+nb`: `histcount lo nb n x b` is the number of samples
`x j` (`j < n`) falling in bin `b`.  numpy bins are half-open
`[lo+b, lo+b+1)` except the last one, which also contains its right
edge. -/
noncomputable def histcount (lo : ℤ) (nb n : ℕ) (x : ℕ → ℝ) (b : ℕ) : ℝ :=
  (((Finset.range n).filter (fun j =>
    ((lo + b : ℤ) : ℝ) ≤ x j ∧
      (if b + 1 = nb then x j ≤ ((lo + b : ℤ) : ℝ) + 1
       else x j < ((lo + b : ℤ) : ℝ) + 1))).card : ℝ)

/-- Norm of a histogram: `np.linalg.norm(hist, 2)` on the 1-D count
vector. -/
noncomputable def histNorm (lo : ℤ) (nb n : ℕ) (x : ℕ → ℝ) : ℝ :=
  vnorm nb (histcount lo nb n x)

/-- Norm of the difference of the two histograms of `x` and `y`:
`np.linalg.norm(hx - hy, 2)`. -/
noncomputable def histDist (lo : ℤ) (nb n : ℕ) (x y : ℕ → ℝ) : ℝ :=
  vnorm nb (fun b => histcount lo nb n x b - histcount lo nb n y b)

/-- One per-variable long-time error term of `ode_forecast`
(`dynamic_challenge_score.py` lines 100-111): the histogram distance
normalized by the truth histogram norm, guarded to `0` when that norm is
not positive (`… if norm_yhistxt > 0 else 0`). -/
noncomputable def hist_term (lo : ℤ) (nb n : ℕ) (x y : ℕ → ℝ) : ℝ :=
  if 0 < histNorm lo nb n x then histDist lo nb n x y / histNorm lo nb n x
  else 0

/-- Embedding of `ode_forecast` (`dynamic_challenge_score.py` lines
70-118) for arrays of shape `m × n`.

* `est` embeds lines 84-86: the ratio of the spectral norms of
  `truth[:, 0:k] - prediction[:, 0:k]` and `truth[:, 0:k]`; Python slicing
  clamps `k` to the column count, hence `min k n`.
* `yt = truth[-modes:, :]` (line 88) keeps the last `min modes m` rows and
  all columns, so row `i` of `yt` is row `m - min modes m + i` of `truth`;
  the three histogrammed variables (lines 91-98) are rows `0,1,2` of `yt`.
* `M = np.arange(-20, 21)` and `M2 = np.arange(0, 51)` give 40 integer
  bins from -20 and 50 integer bins from 0.

The pair returned is `(e1, e2) = (short-time score, long-time score)`;
note the code returns `e1, e2` where `e1` is short-time (line 115). -/
noncomputable def ode_forecast (m n : ℕ) (truth prediction : ℕ → ℕ → ℝ)
    (k modes : ℕ) : ℝ × ℝ :=
  let est := spnorm m (min k n) (fun i j => truth i j - prediction i j) /
    spnorm m (min k n) truth
  let s := m - min modes m
  let eltx := hist_term (-20) 40 n (truth s) (prediction s)
  let elty := hist_term (-20) 40 n (truth (s + 1)) (prediction (s + 1))
  let eltz := hist_term 0 50 n (truth (s + 2)) (prediction (s + 2))
  let elt := (eltx + elty + eltz) / 3
  (100 * (1 - est), 100 * (1 - elt))

open Complex in
/-- Embedding of `np.fft.fft(x)` for a 1-D array of length `n`:
`X k = ∑ j, x j * exp (-2πi·k·j/n)`. -/
noncomputable def dft (n : ℕ) (x : ℕ → ℂ) (kk : ℕ) : ℂ :=
  ∑ j in Finset.range n,
    x j * Complex.exp (-(2 * (Real.pi : ℂ) * Complex.I) * ((kk * j : ℕ) : ℂ) / (n : ℂ))

open Complex in
/-- Embedding of `np.fft.fft2(x)` for an `nf × nf` array:
`X k l = ∑ a b, x a b * exp (-2πi·(k·a + l·b)/nf)`. -/
noncomputable def dft2 (nf : ℕ) (x : ℕ → ℕ → ℂ) (kk ll : ℕ) : ℂ :=
  ∑ a in Finset.range nf, ∑ b in Finset.range nf,
    x a b * Complex.exp (-(2 * (Real.pi : ℂ) * Complex.I) * ((kk * a + ll * b : ℕ) : ℂ) / (nf : ℂ))

/-- Embedding of `np.fft.fftshift` on a 1-D array of length `m`:
`np.roll(x, m // 2)`, i.e. entry `i` of the result is entry
`(i + (m - m/2)) % m` of the input. -/
def fftshift1 (m : ℕ) (x : ℕ → ℝ) : ℕ → ℝ :=
  fun i => x ((i + (m - m / 2)) % m)

/-- The shifted power spectrum used by `pde_forecast` (lines 146-154): the
squared magnitudes of the 1-D DFT of a state column, `fftshift`ed. -/
noncomputable def pde_slice (m : ℕ) (x : ℕ → ℝ) : ℕ → ℝ :=
  fftshift1 m (fun r => Complex.abs (dft m (fun j => ((x j : ℝ) : ℂ)) r) ^ 2)

/-- The matrix `pt` (resp. `pp`) accumulated by the loop of `pde_forecast`
(lines 145-161): column `j` (0-based; loop iteration `j+1`) holds the log
of the shifted power spectrum of state column `n-(j+1)`, cropped to
entries `m/2 - modes … m/2 + modes`. -/
noncomputable def pde_pt (m n k modes : ℕ) (a : ℕ → ℕ → ℝ) : ℕ → ℕ → ℝ :=
  fun i j => Real.log (pde_slice m (fun r => a r (n - (j + 1))) (m / 2 - modes + i))

/-- Embedding of `pde_forecast` (`dynamic_challenge_score.py` lines
121-168) for arrays of shape `m × n`.  The short-time part is as in
`ode_forecast`; the long-time part is the ratio of spectral norms of
`pt - pp` and `pt`, where `pt`/`pp` are the `(2*modes+1) × k` matrices of
cropped log power spectra. -/
noncomputable def pde_forecast (m n : ℕ) (truth prediction : ℕ → ℕ → ℝ)
    (k modes : ℕ) : ℝ × ℝ :=
  let est := spnorm m (min k n) (fun i j => truth i j - prediction i j) /
    spnorm m (min k n) truth
  let pt := pde_pt m n k modes truth
  let pp := pde_pt m n k modes prediction
  let elt := spnorm (2 * modes + 1) k (fun i j => pt i j - pp i j) /
    spnorm (2 * modes + 1) k pt
  (100 * (1 - est), 100 * (1 - elt))

/-- Embedding of `col.reshape((nf, nf), order="F")` (line 197): entry
`(a, b)` of the reshaped field is flat entry `a + b * nf`, cast to `ℂ`
for the FFT. -/
def reshapeF (nf : ℕ) (col : ℕ → ℝ) : ℕ → ℕ → ℂ :=
  fun a b => ((col (a + b * nf) : ℝ) : ℂ)

/-- The squared-magnitude 2-D power spectrum of a flattened `nf × nf`
field (lines 197-202): `P r c = |fft2(field) r c|²`. -/
noncomputable def power2d (nf : ℕ) (col : ℕ → ℝ) (r c : ℕ) : ℝ :=
  Complex.abs (dft2 nf (reshapeF nf col) r c) ^ 2

/-- The 1-D slice of the 2-D power spectrum that `pde_forecast_2d` crops
and log-transforms (lines 205-206): the code extracts the single column at
index `nf/2 + 1` of the *unshifted* power spectrum and then applies
`np.fft.fftshift` to that 1-D vector. -/
noncomputable def pde2d_slice (nf : ℕ) (col : ℕ → ℝ) : ℕ → ℝ :=
  fftshift1 nf (fun r => power2d nf col r (nf / 2 + 1))

/-- The matrix `pt` (resp. `pp`) accumulated by the loop of
`pde_forecast_2d` (lines 196-213), analogous to `pde_pt` but using the 2-D
power-spectrum slice. -/
noncomputable def pde2d_pt (nf n k modes : ℕ) (a : ℕ → ℕ → ℝ) : ℕ → ℕ → ℝ :=
  fun i j => Real.log (pde2d_slice nf (fun idx => a idx (n - (j + 1))) (nf / 2 - modes + i))

/-- Embedding of `pde_forecast_2d` (`dynamic_challenge_score.py` lines
171-219) for arrays of shape `m × n` with grid size `nf`. -/
noncomputable def pde_forecast_2d (m n : ℕ) (truth prediction : ℕ → ℕ → ℝ)
    (k modes nf : ℕ) : ℝ × ℝ :=
  let est := spnorm m (min k n) (fun i j => truth i j - prediction i j) /
    spnorm m (min k n) truth
  let pt := pde2d_pt nf n k modes truth
  let pp := pde2d_pt nf n k modes prediction
  let elt := spnorm (2 * modes + 1) k (fun i j => pt i j - pp i j) /
    spnorm (2 * modes + 1) k pt
  (100 * (1 - est), 100 * (1 - elt))

/-- Embedding of `reconstruction` (`dynamic_challenge_score.py` lines
258-272): `100 * (1 - ‖truth - prediction‖₂ / ‖truth‖₂)` with the
spectral norm of the full arrays. -/
noncomputable def reconstruction (m n : ℕ) (truth prediction : ℕ → ℕ → ℝ) : ℝ :=
  100 * (1 - spnorm m n (fun i j => truth i j - prediction i j) / spnorm m n truth)

/-- Embedding of `forecast` (`dynamic_challenge_score.py` lines 222-255):
dispatch on the system name through the `system_to_forecast` table; an
unknown system yields the empty list. -/
noncomputable def forecast (truth prediction : NArr) (system : String) : List ℝ :=
  if system = "doublependulum" then
    let s := ode_forecast truth.m truth.n truth.val prediction.val 20 1000
    [s.1, s.2]
  else if system = "Lorenz" then
    let s := ode_forecast truth.m truth.n truth.val prediction.val 20 1000
    [s.1, s.2]
  else if system = "Rossler" then
    let s := ode_forecast truth.m truth.n truth.val prediction.val 20 1000
    [s.1, s.2]
  else if system = "KS" then
    let s := pde_forecast truth.m truth.n truth.val prediction.val 20 100
    [s.1, s.2]
  else if system = "Lorenz96" then
    let s := pde_forecast truth.m truth.n truth.val prediction.val 20 30
    [s.1, s.2]
  else if system = "Kolmogorov" then
    let s := pde_forecast_2d truth.m truth.n truth.val prediction.val 20 30 128
    [s.1, s.2]
  else []

/-- Embedding of the `task_mapping` dict of `calculate_all_scores`
(`dynamic_challenge_score.py` lines 290-304): evaluation id ↦ list of
(input file prefix, metric kind, output keys, score indices). -/
def task_mapping : List (String × List (String × String × List String × List ℕ)) :=
  [("9615379", [("X1", "forecast", ["stf_E1", "ltf_E2"], [0, 1])]),
   ("9615532", [("X2", "reconstruction", ["recon_E3"], [0]),
                ("X3", "forecast", ["ltf_E4"], [1]),
                ("X4", "reconstruction", ["recon_E5"], [0]),
                ("X5", "forecast", ["ltf_E6"], [1])]),
   ("9615534", [("X6", "forecast", ["stf_E7", "ltf_E8"], [0, 1])]),
   ("9615535", [("X7", "forecast", ["stf_E9", "ltf_E10"], [0, 1]),
                ("X8", "reconstruction", ["recon_E11"], [0]),
                ("X9", "reconstruction", ["recon_E12"], [0])])]

/-- The fixed catalog `true_systems` (`dynamic_challenge_score.py` lines
312-319). -/
def true_systems : List String :=
  ["doublependulum", "Lorenz", "Rossler", "Lorenz96", "KS", "Kolmogorov"]

/-- Python dict assignment `d[key] = v` on a dict modelled as an
association list: overwrite an existing binding, else append. -/
def dictSet (d : List (String × ℝ)) (key : String) (v : ℝ) : List (String × ℝ) :=
  match d with
  | [] => [(key, v)]
  | (k0, v0) :: rest =>
    if k0 = key then (key, v) :: rest else (k0, v0) :: dictSet rest key v

/-- The inner loop `for key, index in zip(score_keys, score_indices)` of
`calculate_all_scores` (lines 341-343): assign
`score_result[system + "_" + key] = max(scores[index], 0)`; a score index
outside the score list raises `IndexError` in Python, embedded as an
error. -/
noncomputable def zipAssign (system : String) (scores : List ℝ) :
    List String → List ℕ → List (String × ℝ) → Except String (List (String × ℝ))
  | [], _, acc => .ok acc
  | _ :: _, [], acc => .ok acc
  | key :: ks, i :: is2, acc =>
    match scores.get? i with
    | none => .error "IndexError: list index out of range"
    | some s => zipAssign system scores ks is2 (dictSet acc (system ++ "_" ++ key) (max s 0))

/-- The loop over the tasks of one system in `calculate_all_scores`
(lines 323-343): build the truth/prediction paths, skip the task when the
prediction file is absent, otherwise load both arrays (loading may fail)
and score with `forecast` or `reconstruction`. -/
noncomputable def runTasks (gt pd : String) (existsFile : String → Bool)
    (load : String → Except String NArr) (system : String) :
    List (String × String × List String × List ℕ) → List (String × ℝ) →
      Except String (List (String × ℝ))
  | [], acc => .ok acc
  | (pre, metric, keys, idxs) :: rest, acc =>
    let truth_path := gt ++ "/Test_" ++ system ++ "/" ++ pre ++ "test.npy"
    let pred_path := pd ++ "/" ++ system ++ "_" ++ pre ++ "prediction.npy"
    if existsFile pred_path then
      match load truth_path with
      | .error e => .error e
      | .ok truth =>
        match load pred_path with
        | .error e => .error e
        | .ok pred =>
          let scores := if metric = "forecast" then forecast truth pred system
            else [reconstruction truth.m truth.n truth.val pred.val]
          match zipAssign system scores keys idxs acc with
          | .error e => .error e
          | .ok acc2 => runTasks gt pd existsFile load system rest acc2
    else runTasks gt pd existsFile load system rest acc

/-- The outer loop over systems in `calculate_all_scores` (line 322). -/
noncomputable def runSystems (gt pd : String) (existsFile : String → Bool)
    (load : String → Except String NArr)
    (tasks : List (String × String × List String × List ℕ)) :
    List String → List (String × ℝ) → Except String (List (String × ℝ))
  | [], acc => .ok acc
  | sys :: rest, acc =>
    match runTasks gt pd existsFile load sys tasks acc with
    | .error e => .error e
    | .ok acc2 => runSystems gt pd existsFile load tasks rest acc2

/-- The characters of a file name before its first `_`, or all of them
when there is none. -/
def takeUntilUnderscore : List Char → List Char
  | [] => []
  | c :: rest => if c = '_' then [] else c :: takeUntilUnderscore rest

/-- Embedding of Python's `f.split("_")[0]`: the part of `f` preceding
the first underscore (`f.split` always returns a non-empty list, and its
head is exactly this part). -/
def systemOfFile (f : String) : String := ⟨takeUntilUnderscore f.data⟩

/-- Embedding of `calculate_all_scores` (`dynamic_challenge_score.py`
lines 276-345).  The filesystem is passed explicitly: `predFiles` is
`os.listdir(predictions_path)`, `existsFile` is `os.path.exists`, `load`
is `np.load` (which may fail).  `pred_systems` takes the part of each file
name before the first `_`; the set intersection with `true_systems` is
modelled as a filter of `true_systems` (Python iterates the intersection
in arbitrary set order; the resulting dict does not depend on the order,
and the embedding fixes catalog order).  When the evaluation id is not in
`task_mapping`, Python's `task_info` is `None` and the first loop
iteration raises `TypeError` — but only if some system is present. -/
noncomputable def calculate_all_scores (groundtruth_path predictions_path : String)
    (predFiles : List String) (existsFile : String → Bool)
    (load : String → Except String NArr) (evaluation_id : String) :
    Except String (List (String × ℝ)) :=
  if (true_systems.filter
      (fun s => (predFiles.map systemOfFile).contains s)).isEmpty then .ok []
  else
    match task_mapping.lookup evaluation_id with
    | none => .error "TypeError: NoneType object is not iterable"
    | some task_info =>
      runSystems groundtruth_path predictions_path existsFile load task_info
        (true_systems.filter (fun s => (predFiles.map systemOfFile).contains s)) []

/-- The result record assembled by `score_submission` (lines 381-387):
the two fixed fields plus the merged score entries (`result.update(scores)`
runs only when `scores` is truthy, i.e. a non-empty dict; an empty `scores`
field models both `None` and `{}`). -/
structure ResultRec where
  score_status : String
  score_errors : String
  scores : List (String × ℝ)

/-- Embedding of `score_submission` (`dynamic_challenge_score.py` lines
348-389).  `comp` abstracts the outcome of
`untar(...)` followed by `calculate_all_scores(...)` on the submission's
files (an exception in either step is an `Except.error`).

In the `status == INVALID` branch the Python function assigns
`score_status` and `scores` but never assigns the local variable
`message`; building the `result` dict at line 383 therefore raises
`UnboundLocalError`, embedded as an error. -/
def score_submission (comp : Except String (List (String × ℝ))) (status : String) :
    Except String (String × ResultRec) :=
  if status = INVALID then
    .error "UnboundLocalError: local variable message referenced before assignment"
  else
    match comp with
    | .ok scrs => .ok (SCORED, ⟨SCORED, "", scrs⟩)
    | .error e =>
      .ok (INVALID, ⟨INVALID, "Error " ++ e ++ " occurred while scoring", []⟩)

/-! ### Definitions modelled from the claims' words

The claims C2, C3 and C4 describe the metric computations in terms that
differ from the code; the following definitions follow the claims' words
(not the source) so that the two can be compared. -/

/-- Modelled from the claim's words (C2): the element-wise L2 norm of an
`m × n` array (the Frobenius norm), as opposed to the largest singular
value computed by `np.linalg.norm(A, 2)`. -/
noncomputable def elementwise_l2 (m n : ℕ) (A : ℕ → ℕ → ℝ) : ℝ :=
  Real.sqrt (∑ i in Finset.range m, ∑ j in Finset.range n, (A i j) ^ 2)

/-- Modelled from the claim's words (C2): the short-time score
`100 * (1 - est)` with `est` the ratio of the element-wise L2 norms of the
difference and of the truth, both restricted to the first `k` time
columns. -/
noncomputable def short_score_claim (m n k : ℕ) (truth prediction : ℕ → ℕ → ℝ) : ℝ :=
  100 * (1 - elementwise_l2 m (min k n) (fun i j => truth i j - prediction i j) /
    elementwise_l2 m (min k n) truth)

/-- Modelled from the claim's words (C3): histogram counts over
integer-spaced bins covering `[lo, lo+nb)`, every bin half-open. -/
noncomputable def histcount_claim (lo : ℤ) (n : ℕ) (x : ℕ → ℝ) (b : ℕ) : ℝ :=
  (((Finset.range n).filter (fun j =>
    ((lo + b : ℤ) : ℝ) ≤ x j ∧ x j < ((lo + b : ℤ) : ℝ) + 1)).card : ℝ)

/-- Modelled from the spec's words (C3/C8): per-variable normalized
histogram distance, zero when the truth-histogram norm is zero. -/
noncomputable def hist_term_claim (lo : ℤ) (nb n : ℕ) (x y : ℕ → ℝ) : ℝ :=
  if vnorm nb (histcount_claim lo n x) = 0 then 0
  else vnorm nb (fun b => histcount_claim lo n x b - histcount_claim lo n y b) /
    vnorm nb (histcount_claim lo n x)

/-- Modelled from the claim's words (C3): the long-time score of
`ode_forecast` built from the last `modes` *time columns* restricted to
the final 3 *state rows* (treated as x, y, z), x and y histogrammed over
bins covering `[-20, 20)` and z over bins covering `[0, 50)`. -/
noncomputable def ode_long_claim (m n : ℕ) (truth prediction : ℕ → ℕ → ℝ)
    (modes : ℕ) : ℝ :=
  let c0 := n - min modes n
  let w := min modes n
  let ex := hist_term_claim (-20) 40 w (fun j => truth (m - 3) (c0 + j))
    (fun j => prediction (m - 3) (c0 + j))
  let ey := hist_term_claim (-20) 40 w (fun j => truth (m - 2) (c0 + j))
    (fun j => prediction (m - 2) (c0 + j))
  let ez := hist_term_claim 0 50 w (fun j => truth (m - 1) (c0 + j))
    (fun j => prediction (m - 1) (c0 + j))
  100 * (1 - (ex + ey + ez) / 3)

/-- Modelled from the claim's words (C4): the 1-D slice obtained by
frequency-shifting the 2-D power spectrum along the *second* axis and
then extracting the single column at spatial index `nf/2`. -/
noncomputable def pde2d_slice_claim (nf : ℕ) (col : ℕ → ℝ) : ℕ → ℝ :=
  fun r => power2d nf col r ((nf / 2 + (nf - nf / 2)) % nf)

/-! ### Concrete example arrays used by counterexamples and witnesses -/

/-- Example 3×2 truth array with rows `(1,0)`, `(0,1)`, `(0,0)`. -/
def exT (i j : ℕ) : ℝ :=
  if i = 0 ∧ j = 0 then 1 else if i = 1 ∧ j = 1 then 1 else 0

/-- Example 3×2 prediction array with rows `(1,0)`, `(0,0)`, `(0,0)`. -/
def exP (i j : ℕ) : ℝ := if i = 0 ∧ j = 0 then 1 else 0

/-- The difference `exT - exP`: a single `1` entry at `(1,1)`. -/
def exD (i j : ℕ) : ℝ := if i = 1 ∧ j = 1 then 1 else 0

/-- Example 4×4 truth array: all zeros. -/
def c3T (_i _j : ℕ) : ℝ := 0

/-- Example 4×4 prediction array: a single `5` at row 1, column 0. -/
def c3P (i j : ℕ) : ℝ := if i = 1 ∧ j = 0 then 5 else 0

/-- Example flattened 4×4 field: ones at flat indices 0 and 4, i.e. at
grid positions `(0,0)` and `(0,1)` in column-major order. -/
def c4col (idx : ℕ) : ℝ := if idx = 0 ∨ idx = 4 then 1 else 0

/-- All-ones array. -/
def onesArr (_i _j : ℕ) : ℝ := 1

/-- Example 2×1 array: single column `(2, 0)`. -/
def pdeT (i _j : ℕ) : ℝ := if i = 0 then 2 else 0

/-- The all-ones Euclidean vector. -/
def onesVec (n : ℕ) : EuclideanSpace ℝ (Fin n) := fun _ => 1

/-- The `i0`-th standard basis vector of `EuclideanSpace ℝ (Fin n)`. -/
def eVec (n i0 : ℕ) : EuclideanSpace ℝ (Fin n) := fun j => if j.val = i0 then 1 else 0

/-! ### General lemmas about the embedded operations -/

/-- Application of the matrix operator: `(mulVecCLM m n A) x i` is the
`i`-th entry of the matrix-vector product. -/
theorem mulVecCLM_apply (m n : ℕ) (A : ℕ → ℕ → ℝ) (x : EuclideanSpace ℝ (Fin n))
    (i : Fin m) : mulVecCLM m n A x i = ∑ j : Fin n, A i.val j.val * x j := rfl

/-- The spectral norm only depends on the entries inside the declared
dimensions. -/
theorem spnorm_congr_on {m n : ℕ} {A B : ℕ → ℕ → ℝ}
    (h : ∀ i < m, ∀ j < n, A i j = B i j) : spnorm m n A = spnorm m n B := by
  unfold spnorm
  congr 1
  apply ContinuousLinearMap.ext
  intro x
  funext i
  show (∑ j : Fin n, A i.val j.val * x j) = ∑ j : Fin n, B i.val j.val * x j
  exact Finset.sum_congr rfl fun j _ => by rw [h i.val i.isLt j.val j.isLt]

/-- The spectral norm of the zero array is zero. -/
theorem spnorm_zero_arr (m n : ℕ) : spnorm m n (fun _ _ => (0 : ℝ)) = 0 := by
  unfold spnorm
  have h0 : mulVecCLM m n (fun _ _ => (0 : ℝ)) = 0 := by
    apply ContinuousLinearMap.ext
    intro x
    funext i
    show (∑ j : Fin n, (0 : ℝ) * x j) = 0
    simp
  rw [h0, norm_zero]

/-- The spectral norm of the pointwise difference of an array with itself
is zero (the `truth - prediction` term when `prediction = truth`). -/
theorem spnorm_sub_self (m n : ℕ) (a : ℕ → ℕ → ℝ) :
    spnorm m n (fun i j => a i j - a i j) = 0 := by
  rw [spnorm_congr_on (B := fun _ _ => (0 : ℝ)) (fun i _ j _ => sub_self (a i j))]
  exact spnorm_zero_arr m n

/-- A Euclidean vector with a nonzero entry is nonzero. -/
theorem euclid_ne_zero {n : ℕ} {v : EuclideanSpace ℝ (Fin n)} (i : Fin n)
    (h : v i ≠ 0) : v ≠ 0 := fun h0 => h (by rw [h0]; rfl)

/-- The spectral norm is nonzero as soon as some image vector is
nonzero. -/
theorem spnorm_ne_zero {m n : ℕ} {A : ℕ → ℕ → ℝ} (x : EuclideanSpace ℝ (Fin n))
    (h : mulVecCLM m n A x ≠ 0) : spnorm m n A ≠ 0 := by
  intro h0
  apply h
  have hf : mulVecCLM m n A = 0 := norm_eq_zero.mp h0
  rw [hf]
  rfl

/-- Norm of a 2-dimensional Euclidean vector. -/
theorem enorm_two (x : EuclideanSpace ℝ (Fin 2)) :
    norm x = Real.sqrt (x 0 ^ 2 + x 1 ^ 2) := by
  rw [EuclideanSpace.norm_eq, Fin.sum_univ_two]
  simp [Real.norm_eq_abs, sq_abs]

/-- Norm of a 3-dimensional Euclidean vector. -/
theorem enorm_three (x : EuclideanSpace ℝ (Fin 3)) :
    norm x = Real.sqrt (x 0 ^ 2 + x 1 ^ 2 + x 2 ^ 2) := by
  rw [EuclideanSpace.norm_eq, Fin.sum_univ_three]
  simp [Real.norm_eq_abs, sq_abs, add_assoc]

/-- Norm of a 1-dimensional Euclidean vector. -/
theorem enorm_one (x : EuclideanSpace ℝ (Fin 1)) :
    norm x = Real.sqrt (x 0 ^ 2) := by
  rw [EuclideanSpace.norm_eq, Fin.sum_univ_one]
  simp [Real.norm_eq_abs, sq_abs]

/-- The per-variable long-time error of `ode_forecast` vanishes when both
histograms are built from the same data. -/
theorem hist_term_self (lo : ℤ) (nb n : ℕ) (x : ℕ → ℝ) :
    hist_term lo nb n x x = 0 := by
  have hd : histDist lo nb n x x = 0 := by
    unfold histDist vnorm
    rw [Finset.sum_eq_zero (fun b _ => by simp)]
    exact Real.sqrt_zero
  unfold hist_term
  split
  · rw [hd, zero_div]
  · rfl

/-- The claim-modelled per-variable long-time error vanishes when both
histograms are built from the same data. -/
theorem hist_term_claim_self (lo : ℤ) (nb n : ℕ) (x : ℕ → ℝ) :
    hist_term_claim lo nb n x x = 0 := by
  unfold hist_term_claim
  split
  · rfl
  · rw [show (fun b => histcount_claim lo n x b - histcount_claim lo n x b) =
      fun _ => (0 : ℝ) from funext fun b => sub_self _]
    unfold vnorm
    rw [Finset.sum_eq_zero (fun b _ => by ring), Real.sqrt_zero, zero_div]

/-! ### Claim C1 -/

/-- Claim C1 (code bug): for an incoming status `INVALID`,
`score_submission` does *not* return an `INVALID` record with the message
"Submission was not scored due to INVALID status" — that string occurs
nowhere in the code.  The branch sets `score_status` and `scores` but
never assigns the local `message`, so building the result dict raises
`UnboundLocalError`; the call raises instead of returning, and
`calculate_all_scores` is indeed never invoked. -/
theorem c1_invalid_status_raises (comp : Except String (List (String × ℝ))) :
    score_submission comp INVALID =
      .error "UnboundLocalError: local variable message referenced before assignment" := by
  simp [score_submission]

/-! ### Claim C5 -/

/-- Claim C5: whenever the extraction/aggregation computation raises (and
the incoming status is not `INVALID`), `score_submission` returns status
`INVALID`, with `score_errors` set to `"Error " ++ details ++ " occurred
while scoring"`, and the result record carries no score keys at all. -/
theorem c5_failure_invalid_no_scores (e status : String) (h : status ≠ INVALID) :
    score_submission (.error e) status =
      .ok (INVALID, ⟨INVALID, "Error " ++ e ++ " occurred while scoring", []⟩) := by
  simp [score_submission, h]

/-- Witness for C5 at a concrete status and error message. -/
theorem c5_failure_invalid_no_scores_witness :
    score_submission (.error "X") "VALIDATED" =
      .ok (INVALID, ⟨INVALID, "Error X occurred while scoring", []⟩) :=
  c5_failure_invalid_no_scores "X" "VALIDATED" (by decide)

/-! ### Claim C9 -/

/-- Claim C9: for every system name outside the six-entry catalog, the
`forecast` dispatch returns the empty list (and, being total, never
raises), whatever the truth and prediction arrays are. -/
theorem c9_unknown_system_empty (system : String) (hs : system ∉ true_systems)
    (t p : NArr) : forecast t p system = [] := by
  simp only [true_systems, List.mem_cons, List.not_mem_nil, or_false] at hs
  push_neg at hs
  obtain ⟨h1, h2, h3, h4, h5, h6⟩ := hs
  simp [forecast, h1, h2, h3, h4, h5, h6]

/-- Witness for C9 at the concrete unknown system name "foo". -/
theorem c9_unknown_system_empty_witness :
    forecast ⟨1, 1, onesArr⟩ ⟨1, 1, onesArr⟩ "foo" = [] :=
  c9_unknown_system_empty "foo" (by decide) _ _

/-! ### Claim C10 -/

/-- Claim C10: for every system in the catalog, `forecast` returns a list
of exactly two scores, and every task of the task registry whose metric
kind is `forecast` only selects score indices below 2, so the indices are
always in range. -/
theorem c10_forecast_indices_in_range :
    (∀ (t p : NArr) (system : String), system ∈ true_systems →
      (forecast t p system).length = 2) ∧
    (∀ entry ∈ task_mapping, ∀ task ∈ entry.2,
      task.2.1 = "forecast" → ∀ i ∈ task.2.2.2, i < 2) := by
  constructor
  · intro t p system hs
    simp only [true_systems, List.mem_cons, List.not_mem_nil, or_false] at hs
    rcases hs with h | h | h | h | h | h <;> subst h <;> simp [forecast]
  · decide

/-- Witness for C10: the catalog system "Lorenz" produces two scores, and
the forecast task of queue 9615379 uses only indices 0 and 1. -/
theorem c10_forecast_indices_in_range_witness :
    (forecast ⟨1, 1, onesArr⟩ ⟨1, 1, onesArr⟩ "Lorenz").length = 2 ∧ (1 : ℕ) < 2 :=
  ⟨c10_forecast_indices_in_range.1 _ _ "Lorenz" (by decide),
   c10_forecast_indices_in_range.2 ("9615379", [("X1", "forecast", ["stf_E1", "ltf_E2"], [0, 1])])
     (by decide) ("X1", "forecast", ["stf_E1", "ltf_E2"], [0, 1]) (by decide) rfl 1 (by decide)⟩

/-! ### Claim C8 -/

/-- Claim C8: in `ode_forecast`, for each of the three variables x, y, z
(the three rows of the `[-modes:]` slice, as proved by the C3 theorem),
a zero truth-histogram norm makes the per-variable long-time error `0`
instead of dividing by zero; the guard is in effect for every input. -/
theorem c8_histogram_guard :
    (∀ (lo : ℤ) (nb n : ℕ) (x y : ℕ → ℝ),
      histNorm lo nb n x = 0 → hist_term lo nb n x y = 0) ∧
    (∀ (m n : ℕ) (truth prediction : ℕ → ℕ → ℝ) (k modes : ℕ),
      (ode_forecast m n truth prediction k modes).2 =
        100 * (1 - (hist_term (-20) 40 n (truth (m - min modes m))
            (prediction (m - min modes m)) +
          hist_term (-20) 40 n (truth (m - min modes m + 1))
            (prediction (m - min modes m + 1)) +
          hist_term 0 50 n (truth (m - min modes m + 2))
            (prediction (m - min modes m + 2))) / 3)) := by
  constructor
  · intro lo nb n x y h
    unfold hist_term
    rw [h]
    simp
  · intro m n truth prediction k modes
    rfl

/-- Witness for C8: a row constantly 100 lies outside every x-bin, its
histogram norm is 0, and the per-variable error is 0, not a division by
zero. -/
theorem c8_histogram_guard_witness :
    histNorm (-20) 40 1 (fun _ => (100 : ℝ)) = 0 ∧
    hist_term (-20) 40 1 (fun _ => (100 : ℝ)) (fun _ => (0 : ℝ)) = 0 := by
  have hn : histNorm (-20) 40 1 (fun _ => (100 : ℝ)) = 0 := by
    unfold histNorm vnorm
    rw [Finset.sum_eq_zero, Real.sqrt_zero]
    intro b hb
    have hb40 : b < 40 := Finset.mem_range.mp hb
    have hc : histcount (-20) 40 1 (fun _ => (100 : ℝ)) b = 0 := by
      unfold histcount
      rw [Finset.filter_eq_empty_iff.mpr, Finset.card_empty]
      · simp
      · intro j _
        rintro ⟨-, h2⟩
        have hbR : (b : ℝ) < 40 := by exact_mod_cast hb40
        split at h2 <;> push_cast at h2 <;> linarith
    rw [hc]
    ring
  exact ⟨hn, c8_histogram_guard.1 (-20) 40 1 _ _ hn⟩

/-! ### Claim C6 -/

/-- Updating the score dict with a nonnegative value preserves
nonnegativity of all its values. -/
theorem dictSet_nonneg (key : String) (v : ℝ) (hv : 0 ≤ v) :
    ∀ (d : List (String × ℝ)), (∀ kv ∈ d, 0 ≤ kv.2) →
      ∀ kv ∈ dictSet d key v, 0 ≤ kv.2 := by
  intro d
  induction d with
  | nil =>
    intro _ kv h
    simp only [dictSet, List.mem_singleton] at h
    subst h
    exact hv
  | cons head tail ih =>
    obtain ⟨k0, v0⟩ := head
    intro hd kv h
    simp only [dictSet] at h
    split at h
    · rcases List.mem_cons.mp h with h' | htail
      · subst h'
        exact hv
      · exact hd _ (List.mem_cons_of_mem _ htail)
    · rcases List.mem_cons.mp h with h' | htail
      · subst h'
        exact hd _ (List.mem_cons_self _ _)
      · exact ih (fun kv2 hkv => hd _ (List.mem_cons_of_mem _ hkv)) _ htail

/-- All values assigned by the key/index zip loop are clamped with
`max _ 0`, so nonnegativity of the accumulator is preserved. -/
theorem zipAssign_nonneg (system : String) (scores : List ℝ) :
    ∀ (ks : List String) (idxs : List ℕ) (acc out : List (String × ℝ)),
      (∀ kv ∈ acc, 0 ≤ kv.2) → zipAssign system scores ks idxs acc = .ok out →
      ∀ kv ∈ out, 0 ≤ kv.2 := by
  intro ks
  induction ks with
  | nil =>
    intro idxs acc out hacc heq
    simp only [zipAssign] at heq
    cases heq
    exact hacc
  | cons key ks ih =>
    intro idxs acc out hacc heq
    cases idxs with
    | nil =>
      simp only [zipAssign] at heq
      cases heq
      exact hacc
    | cons i is2 =>
      simp only [zipAssign] at heq
      split at heq
      · cases heq
      · rename_i s hget
        exact ih is2 _ out
          (dictSet_nonneg _ _ (le_max_right s 0) _ hacc) heq

/-- The per-system task loop preserves nonnegativity of the score
accumulator. -/
theorem runTasks_nonneg (gt pd : String) (ef : String → Bool)
    (ld : String → Except String NArr) (system : String) :
    ∀ (tasks : List (String × String × List String × List ℕ))
      (acc out : List (String × ℝ)),
      (∀ kv ∈ acc, 0 ≤ kv.2) →
      runTasks gt pd ef ld system tasks acc = .ok out →
      ∀ kv ∈ out, 0 ≤ kv.2 := by
  intro tasks
  induction tasks with
  | nil =>
    intro acc out hacc heq
    simp only [runTasks] at heq
    cases heq
    exact hacc
  | cons task rest ih =>
    obtain ⟨pre, metric, keys, idxs⟩ := task
    intro acc out hacc heq
    simp only [runTasks] at heq
    split at heq
    · split at heq
      · cases heq
      · split at heq
        · cases heq
        · split at heq
          · cases heq
          · rename_i truth _ pred _ acc2 hzip
            exact ih acc2 out
              (zipAssign_nonneg _ _ _ _ _ _ hacc hzip) heq
    · exact ih acc out hacc heq

/-- The outer system loop preserves nonnegativity of the score
accumulator. -/
theorem runSystems_nonneg (gt pd : String) (ef : String → Bool)
    (ld : String → Except String NArr)
    (tasks : List (String × String × List String × List ℕ)) :
    ∀ (systems : List String) (acc out : List (String × ℝ)),
      (∀ kv ∈ acc, 0 ≤ kv.2) →
      runSystems gt pd ef ld tasks systems acc = .ok out →
      ∀ kv ∈ out, 0 ≤ kv.2 := by
  intro systems
  induction systems with
  | nil =>
    intro acc out hacc heq
    simp only [runSystems] at heq
    cases heq
    exact hacc
  | cons sys rest ih =>
    intro acc out hacc heq
    simp only [runSystems] at heq
    split at heq
    · cases heq
    · rename_i acc2 hrun
      exact ih acc2 out (runTasks_nonneg _ _ _ _ _ _ _ _ hacc hrun) heq

/-- Claim C6: every value of a score mapping returned by
`calculate_all_scores` is nonnegative — each selected scalar is clamped
with `max(scores[index], 0)` before being assigned to its output key. -/
theorem c6_scores_nonneg (gp pdp : String) (predFiles : List String)
    (ef : String → Bool) (ld : String → Except String NArr) (eid : String)
    (out : List (String × ℝ))
    (heq : calculate_all_scores gp pdp predFiles ef ld eid = .ok out) :
    ∀ kv ∈ out, 0 ≤ kv.2 := by
  unfold calculate_all_scores at heq
  split at heq
  · cases heq
    intro kv h
    exact absurd h (List.not_mem_nil kv)
  · split at heq
    · cases heq
    · exact runSystems_nonneg _ _ _ _ _ _ _ _
        (fun kv h => absurd h (List.not_mem_nil kv)) heq

/-- Witness for C6: a concrete run of the aggregator over one Lorenz
prediction file returns two clamped (hence nonnegative) scores. -/
theorem c6_scores_nonneg_witness :
    calculate_all_scores "gt" "pd" ["Lorenz_X1prediction.npy"] (fun _ => true)
      (fun _ => .ok ⟨3, 1, onesArr⟩) "9615379" =
      .ok [("Lorenz_stf_E1", max (ode_forecast 3 1 onesArr onesArr 20 1000).1 0),
           ("Lorenz_ltf_E2", max (ode_forecast 3 1 onesArr onesArr 20 1000).2 0)] ∧
    (0 : ℝ) ≤ max (ode_forecast 3 1 onesArr onesArr 20 1000).1 0 := by
  have h : calculate_all_scores "gt" "pd" ["Lorenz_X1prediction.npy"] (fun _ => true)
      (fun _ => .ok ⟨3, 1, onesArr⟩) "9615379" =
      .ok [("Lorenz_stf_E1", max (ode_forecast 3 1 onesArr onesArr 20 1000).1 0),
           ("Lorenz_ltf_E2", max (ode_forecast 3 1 onesArr onesArr 20 1000).2 0)] := rfl
  exact ⟨h, c6_scores_nonneg _ _ _ _ _ _ _ h _ (List.mem_cons_self _ _)⟩

/-! ### Claim C2 -/

/-- The entries of the matrix-vector product for the example truth
array `exT`. -/
theorem mulVec_exT (x : EuclideanSpace ℝ (Fin 2)) :
    mulVecCLM 3 2 exT x 0 = x 0 ∧ mulVecCLM 3 2 exT x 1 = x 1 ∧
      mulVecCLM 3 2 exT x 2 = 0 := by
  refine ⟨?_, ?_, ?_⟩ <;>
    · rw [mulVecCLM_apply, Fin.sum_univ_two]
      norm_num [exT, Fin.val_zero, Fin.val_one, Fin.val_two]

/-- The entries of the matrix-vector product for the example difference
array `exD`. -/
theorem mulVec_exD (x : EuclideanSpace ℝ (Fin 2)) :
    mulVecCLM 3 2 exD x 0 = 0 ∧ mulVecCLM 3 2 exD x 1 = x 1 ∧
      mulVecCLM 3 2 exD x 2 = 0 := by
  refine ⟨?_, ?_, ?_⟩ <;>
    · rw [mulVecCLM_apply, Fin.sum_univ_two]
      norm_num [exD, Fin.val_zero, Fin.val_one, Fin.val_two]

/-- The largest singular value of `exT` (rows `(1,0)`, `(0,1)`, `(0,0)`)
is 1. -/
theorem spnorm_exT : spnorm 3 2 exT = 1 := by
  apply le_antisymm
  · apply ContinuousLinearMap.opNorm_le_bound _ zero_le_one
    intro x
    obtain ⟨h0, h1, h2⟩ := mulVec_exT x
    rw [enorm_three, enorm_two, h0, h1, h2, one_mul]
    apply Real.sqrt_le_sqrt
    norm_num
  · have hle := ContinuousLinearMap.le_opNorm (mulVecCLM 3 2 exT) (eVec 2 0)
    obtain ⟨h0, h1, h2⟩ := mulVec_exT (eVec 2 0)
    have hv : norm (eVec 2 0) = 1 := by
      rw [enorm_two]
      norm_num [eVec, Fin.val_zero, Fin.val_one, Real.sqrt_one]
    have hfx : norm (mulVecCLM 3 2 exT (eVec 2 0)) = 1 := by
      rw [enorm_three, h0, h1, h2]
      norm_num [eVec, Fin.val_zero, Fin.val_one, Real.sqrt_one]
    rw [hv, hfx, mul_one] at hle
    exact hle

/-- The largest singular value of `exD` (a single 1 entry at `(1,1)`)
is 1. -/
theorem spnorm_exD : spnorm 3 2 exD = 1 := by
  apply le_antisymm
  · apply ContinuousLinearMap.opNorm_le_bound _ zero_le_one
    intro x
    obtain ⟨h0, h1, h2⟩ := mulVec_exD x
    rw [enorm_three, enorm_two, h0, h1, h2, one_mul]
    apply Real.sqrt_le_sqrt
    nlinarith [sq_nonneg (x 0)]
  · have hle := ContinuousLinearMap.le_opNorm (mulVecCLM 3 2 exD) (eVec 2 1)
    obtain ⟨h0, h1, h2⟩ := mulVec_exD (eVec 2 1)
    have hv : norm (eVec 2 1) = 1 := by
      rw [enorm_two]
      norm_num [eVec, Fin.val_zero, Fin.val_one, Real.sqrt_one]
    have hfx : norm (mulVecCLM 3 2 exD (eVec 2 1)) = 1 := by
      rw [enorm_three, h0, h1, h2]
      norm_num [eVec, Fin.val_zero, Fin.val_one, Real.sqrt_one]
    rw [hv, hfx, mul_one] at hle
    exact hle

/-- The element-wise L2 norm of `exT` is `√2`. -/
theorem el2_exT : elementwise_l2 3 2 exT = Real.sqrt 2 := by
  unfold elementwise_l2
  norm_num [Finset.sum_range_succ, exT]

/-- Counterexample to claim C2: `np.linalg.norm(·, 2)` on a 2-D slice is
the largest singular value, not the element-wise L2 norm.  For the 3×2
truth `exT` and prediction `exP` with `k = 2`, the code's short-time
score is `0` (both spectral norms are 1), while the claim's element-wise
formula gives `100 * (1 - 1/√2) ≠ 0`. -/
theorem c2_counterexample :
    (ode_forecast 3 2 exT exP 2 3).1 ≠ short_score_claim 3 2 2 exT exP := by
  have hdiff : ∀ i < 3, ∀ j < 2, exT i j - exP i j = exD i j := by
    intro i hi j hj
    interval_cases i <;> interval_cases j <;> norm_num [exT, exP, exD]
  have hcode : (ode_forecast 3 2 exT exP 2 3).1 =
      100 * (1 - spnorm 3 (min 2 2) (fun i j => exT i j - exP i j) /
        spnorm 3 (min 2 2) exT) := rfl
  have hmin : min 2 2 = 2 := rfl
  have hspD : spnorm 3 2 (fun i j => exT i j - exP i j) = 1 := by
    rw [spnorm_congr_on (B := exD) hdiff]
    exact spnorm_exD
  have hcode2 : (ode_forecast 3 2 exT exP 2 3).1 = 0 := by
    rw [hcode, hmin, hspD, spnorm_exT]
    norm_num
  have hfrobD : elementwise_l2 3 (min 2 2) (fun i j => exT i j - exP i j) = 1 := by
    rw [hmin]
    unfold elementwise_l2
    norm_num [Finset.sum_range_succ, exT, exP]
  have hclaim : short_score_claim 3 2 2 exT exP = 100 * (1 - 1 / Real.sqrt 2) := by
    unfold short_score_claim
    rw [hfrobD, hmin, el2_exT]
  have hs2 : (1 : ℝ) < Real.sqrt 2 := by
    rw [show (1 : ℝ) = Real.sqrt 1 from Real.sqrt_one.symm]
    exact Real.sqrt_lt_sqrt (by norm_num) (by norm_num)
  have hlt : 1 / Real.sqrt 2 < 1 := by
    rw [div_lt_one (lt_trans one_pos hs2)]
    exact hs2
  have hpos : (0 : ℝ) < 100 * (1 - 1 / Real.sqrt 2) := by nlinarith
  rw [hcode2, hclaim]
  exact ne_of_lt hpos

/-- Claim C2 amended: in all three forecast metrics, the short-time score
is `100 * (1 - est)` where `est` is the ratio of the *largest singular
values* (the `ℓ²→ℓ²` operator norms, what `np.linalg.norm(·, 2)` computes
on a 2-D array) of the difference and of the truth over the first `k`
time columns — not of their element-wise L2 norms. -/
theorem c2_amended (m n k modes nf : ℕ) (truth prediction : ℕ → ℕ → ℝ) :
    (ode_forecast m n truth prediction k modes).1 =
      100 * (1 - spnorm m (min k n) (fun i j => truth i j - prediction i j) /
        spnorm m (min k n) truth) ∧
    (pde_forecast m n truth prediction k modes).1 =
      100 * (1 - spnorm m (min k n) (fun i j => truth i j - prediction i j) /
        spnorm m (min k n) truth) ∧
    (pde_forecast_2d m n truth prediction k modes nf).1 =
      100 * (1 - spnorm m (min k n) (fun i j => truth i j - prediction i j) /
        spnorm m (min k n) truth) :=
  ⟨rfl, rfl, rfl⟩

/-! ### Claim C3 -/

/-- Evaluation of a histogram count through an explicit description of
the matching sample set. -/
theorem histcount_eval (lo : ℤ) (nb n : ℕ) (x : ℕ → ℝ) (b : ℕ) (S : Finset ℕ)
    (hS : ∀ j, j ∈ S ↔ j ∈ Finset.range n ∧ (((lo + b : ℤ) : ℝ) ≤ x j ∧
      (if b + 1 = nb then x j ≤ ((lo + b : ℤ) : ℝ) + 1
       else x j < ((lo + b : ℤ) : ℝ) + 1))) :
    histcount lo nb n x b = S.card := by
  unfold histcount
  norm_cast
  congr 1
  ext j
  rw [Finset.mem_filter, hS]
  push_cast
  rfl

/-- Bin 20 (`[0,1)`) of the x-row of the all-zero truth array holds all 4
samples. -/
theorem c3_count_T20 : histcount (-20) 40 4 (c3T 1) 20 = 4 := by
  rw [histcount_eval (-20) 40 4 (c3T 1) 20 (Finset.range 4)
    (fun j => ⟨fun hj => ⟨hj, by norm_num [c3T], by norm_num [c3T]⟩, fun h => h.1⟩)]
  simp

/-- Bin 25 (`[5,6)`) of the x-row of the all-zero truth array is empty. -/
theorem c3_count_T25 : histcount (-20) 40 4 (c3T 1) 25 = 0 := by
  rw [histcount_eval (-20) 40 4 (c3T 1) 25 ∅
    (fun j => ⟨fun h => absurd h (Finset.not_mem_empty j),
      fun h => absurd h.2.1 (by norm_num [c3T])⟩)]
  simp

/-- Bin 25 (`[5,6)`) of the x-row of the prediction `c3P` holds exactly
the sample at time column 0 (the value 5). -/
theorem c3_count_P25 : histcount (-20) 40 4 (c3P 1) 25 = 1 := by
  rw [histcount_eval (-20) 40 4 (c3P 1) 25 {0} ?_]
  · simp
  · intro j
    constructor
    · intro h
      rw [Finset.mem_singleton] at h
      subst h
      exact ⟨by norm_num, by norm_num [c3P], by norm_num [c3P]⟩
    · rintro ⟨hj4, h1, -⟩
      rw [Finset.mem_singleton]
      by_contra hne
      have hz : c3P 1 j = 0 := by simp [c3P, hne]
      rw [hz] at h1
      push_cast at h1
      linarith

/-- Counterexample to claim C3: the histograms of `ode_forecast` are
built from the last `modes` state *rows* over *all* time columns
(`truth[-modes:, :]`), not from the last `modes` time columns restricted
to the final 3 state rows.  For the 4×4 arrays `c3T` (zero) and `c3P`
(one 5 at row 1, column 0) with `modes = 3`, the differing entry sits in
a column the claim's recipe discards but in a row the code does read: the
code's long-time score differs from the claim's recipe (which returns
100). -/
theorem c3_counterexample :
    (ode_forecast 4 4 c3T c3P 2 3).2 ≠ ode_long_claim 4 4 c3T c3P 3 := by
  have hcode : (ode_forecast 4 4 c3T c3P 2 3).2 =
      100 * (1 - (hist_term (-20) 40 4 (c3T 1) (c3P 1) +
        hist_term (-20) 40 4 (c3T 2) (c3P 2) +
        hist_term 0 50 4 (c3T 3) (c3P 3)) / 3) := rfl
  have hxpos : 0 < histNorm (-20) 40 4 (c3T 1) := by
    unfold histNorm vnorm
    apply Real.sqrt_pos.mpr
    apply Finset.sum_pos'
    · intro b _
      positivity
    · refine ⟨20, Finset.mem_range.mpr (by norm_num), ?_⟩
      rw [c3_count_T20]
      norm_num
  have hdpos : 0 < histDist (-20) 40 4 (c3T 1) (c3P 1) := by
    unfold histDist vnorm
    apply Real.sqrt_pos.mpr
    apply Finset.sum_pos'
    · intro b _
      positivity
    · refine ⟨25, Finset.mem_range.mpr (by norm_num), ?_⟩
      show 0 < (histcount (-20) 40 4 (c3T 1) 25 - histcount (-20) 40 4 (c3P 1) 25) ^ 2
      rw [c3_count_T25, c3_count_P25]
      norm_num
  have heltx : 0 < hist_term (-20) 40 4 (c3T 1) (c3P 1) := by
    unfold hist_term
    rw [if_pos hxpos]
    exact div_pos hdpos hxpos
  have helty : hist_term (-20) 40 4 (c3T 2) (c3P 2) = 0 := by
    rw [show c3P 2 = c3T 2 from funext fun j => by simp [c3P, c3T]]
    exact hist_term_self _ _ _ _
  have heltz : hist_term 0 50 4 (c3T 3) (c3P 3) = 0 := by
    rw [show c3P 3 = c3T 3 from funext fun j => by simp [c3P, c3T]]
    exact hist_term_self _ _ _ _
  have hlhs : (ode_forecast 4 4 c3T c3P 2 3).2 < 100 := by
    rw [hcode, helty, heltz]
    nlinarith [heltx]
  have hclaim : ode_long_claim 4 4 c3T c3P 3 = 100 := by
    have h0 : ode_long_claim 4 4 c3T c3P 3 =
        100 * (1 - (hist_term_claim (-20) 40 3 (fun j => c3T 1 (1 + j))
            (fun j => c3P 1 (1 + j)) +
          hist_term_claim (-20) 40 3 (fun j => c3T 2 (1 + j))
            (fun j => c3P 2 (1 + j)) +
          hist_term_claim 0 50 3 (fun j => c3T 3 (1 + j))
            (fun j => c3P 3 (1 + j))) / 3) := rfl
    rw [h0,
      show (fun j => c3P 1 (1 + j)) = (fun j => c3T 1 (1 + j)) from
        funext fun j => by simp [c3P, c3T],
      show (fun j => c3P 2 (1 + j)) = (fun j => c3T 2 (1 + j)) from
        funext fun j => by simp [c3P, c3T],
      show (fun j => c3P 3 (1 + j)) = (fun j => c3T 3 (1 + j)) from
        funext fun j => by simp [c3P, c3T],
      hist_term_claim_self, hist_term_claim_self, hist_term_claim_self]
    norm_num
  rw [hclaim]
  exact ne_of_lt hlhs

/-- Claim C3 amended: the three histograms of `ode_forecast`'s long-time
score are built from the last `modes` state *rows* of the arrays over
*all* time columns (`truth[-modes:, :]`), with rows `0`, `1`, `2` of that
slice (i.e. rows `m - min modes m`, `+1`, `+2` of the array) as x, y, z;
x and y use the 41 integer bin edges `-20 … 20` (numpy makes the last bin
closed) and z the 51 edges `0 … 50`. -/
theorem c3_amended (m n : ℕ) (truth prediction : ℕ → ℕ → ℝ) (k modes : ℕ) :
    (ode_forecast m n truth prediction k modes).2 =
      100 * (1 - (hist_term (-20) 40 n (truth (m - min modes m))
          (prediction (m - min modes m)) +
        hist_term (-20) 40 n (truth (m - min modes m + 1))
          (prediction (m - min modes m + 1)) +
        hist_term 0 50 n (truth (m - min modes m + 2))
          (prediction (m - min modes m + 2))) / 3) := rfl

/-! ### Claim C4 -/

/-- The complex exponential at `-3π/2` is `I`. -/
theorem exp_neg_three_pi_half : Complex.exp (-(2 * (Real.pi : ℂ) * Complex.I * 3) / 4) = Complex.I := by
  have harg : -(2 * (Real.pi : ℂ) * Complex.I * 3) / 4 =
      ((-(3 * Real.pi / 2) : ℝ) : ℂ) * Complex.I := by
    push_cast
    ring
  rw [harg, Complex.exp_mul_I, ← Complex.ofReal_cos, ← Complex.ofReal_sin]
  have hc : Real.cos (-(3 * Real.pi / 2)) = 0 := by
    rw [Real.cos_neg, show 3 * Real.pi / 2 = Real.pi + Real.pi / 2 from by ring,
      Real.cos_add, Real.cos_pi, Real.sin_pi, Real.cos_pi_div_two, Real.sin_pi_div_two]
    ring
  have hs : Real.sin (-(3 * Real.pi / 2)) = 1 := by
    rw [Real.sin_neg, show 3 * Real.pi / 2 = Real.pi + Real.pi / 2 from by ring,
      Real.sin_add, Real.cos_pi, Real.sin_pi, Real.cos_pi_div_two, Real.sin_pi_div_two]
    ring
  rw [hc, hs]
  simp

/-- The 2-D DFT of the example field at frequency `(2, 3)` is `1 + i`. -/
theorem dft2_c4_23 : dft2 4 (reshapeF 4 c4col) 2 3 = 1 + Complex.I := by
  unfold dft2 reshapeF c4col
  norm_num [Finset.sum_range_succ]
  rw [exp_neg_three_pi_half]

/-- The 2-D DFT of the example field at frequency `(0, 0)` is `2`. -/
theorem dft2_c4_00 : dft2 4 (reshapeF 4 c4col) 0 0 = 2 := by
  unfold dft2 reshapeF c4col
  norm_num [Finset.sum_range_succ]

/-- The power spectrum of the example field at `(2, 3)` is `2`. -/
theorem power2d_c4_23 : power2d 4 c4col 2 3 = 2 := by
  unfold power2d
  rw [dft2_c4_23, Complex.sq_abs]
  simp [Complex.normSq_apply]
  norm_num

/-- The power spectrum of the example field at `(0, 0)` is `4`. -/
theorem power2d_c4_00 : power2d 4 c4col 0 0 = 4 := by
  unfold power2d
  rw [dft2_c4_00, Complex.sq_abs]
  simp [Complex.normSq_apply]
  norm_num

/-- Counterexample to claim C4: the slice cropped and log-transformed by
`pde_forecast_2d` is *not* the column at spatial index `nf/2` of the
spectrum shifted along the second axis.  For `nf = 4` and the field
`c4col`, the code's slice at position 0 is `P[2, 3] = 2` (column
`nf/2 + 1` of the unshifted spectrum, then shifted as a 1-D vector),
while the claim's recipe gives `P[0, 0] = 4`. -/
theorem c4_counterexample : pde2d_slice 4 c4col 0 ≠ pde2d_slice_claim 4 c4col 0 := by
  have h1 : pde2d_slice 4 c4col 0 = power2d 4 c4col 2 3 := rfl
  have h2 : pde2d_slice_claim 4 c4col 0 = power2d 4 c4col 0 0 := rfl
  rw [h1, h2, power2d_c4_23, power2d_c4_00]
  norm_num

/-- Claim C4 amended: for each of the last `k` time columns,
`pde_forecast_2d` extracts the single column at spatial index `nf/2 + 1`
of the *unshifted* 2-D power spectrum and frequency-shifts that 1-D
vector along its own axis; the entries cropped (around `nf/2`) and
log-transformed into the long-time matrices are exactly these slices. -/
theorem c4_amended (nf n k modes : ℕ) (a : ℕ → ℕ → ℝ) :
    (∀ r, pde2d_slice nf (fun idx => a idx (n - (k + 1))) r =
      fftshift1 nf (fun rr => power2d nf (fun idx => a idx (n - (k + 1))) rr (nf / 2 + 1)) r) ∧
    (∀ i j, pde2d_pt nf n k modes a i j =
      Real.log (pde2d_slice nf (fun idx => a idx (n - (j + 1))) (nf / 2 - modes + i))) :=
  ⟨fun _ => rfl, fun _ _ => rfl⟩

/-! ### Claim C7 -/

/-- Claim C7: with `prediction = truth` and valid data (nonzero truth
norms; for `ode_forecast` at least 3 rows in the `[-modes:]` slice, so
the Python code does not raise `IndexError`; for `pde_forecast` a crop
window inside the array, strictly positive cropped spectra — so `np.log`
is finite — and a nonzero log-spectrum matrix, so no `nan` arises), every
metric attains its maximal scores: reconstruction 100 and forecast
short-time and long-time scores 100. -/
theorem c7_perfect_prediction :
    (∀ (m n : ℕ) (truth : ℕ → ℕ → ℝ), spnorm m n truth ≠ 0 →
      reconstruction m n truth truth = 100) ∧
    (∀ (m n k modes : ℕ) (truth : ℕ → ℕ → ℝ),
      spnorm m (min k n) truth ≠ 0 → 3 ≤ min modes m →
      ode_forecast m n truth truth k modes = (100, 100)) ∧
    (∀ (m n k modes : ℕ) (truth : ℕ → ℕ → ℝ),
      spnorm m (min k n) truth ≠ 0 → k ≤ n → modes ≤ m / 2 →
      m / 2 + modes + 1 ≤ m →
      (∀ i < 2 * modes + 1, ∀ j < k,
        0 < pde_slice m (fun r => truth r (n - (j + 1))) (m / 2 - modes + i)) →
      spnorm (2 * modes + 1) k (pde_pt m n k modes truth) ≠ 0 →
      pde_forecast m n truth truth k modes = (100, 100)) := by
  refine ⟨?_, ?_, ?_⟩
  · intro m n truth _
    unfold reconstruction
    rw [spnorm_sub_self, zero_div]
    norm_num
  · intro m n k modes truth _ _
    rw [Prod.ext_iff]
    constructor
    · show 100 * (1 - spnorm m (min k n) (fun i j => truth i j - truth i j) /
        spnorm m (min k n) truth) = 100
      rw [spnorm_sub_self, zero_div]
      norm_num
    · show 100 * (1 - (hist_term (-20) 40 n (truth (m - min modes m))
          (truth (m - min modes m)) +
        hist_term (-20) 40 n (truth (m - min modes m + 1))
          (truth (m - min modes m + 1)) +
        hist_term 0 50 n (truth (m - min modes m + 2))
          (truth (m - min modes m + 2))) / 3) = 100
      rw [hist_term_self, hist_term_self, hist_term_self]
      norm_num
  · intro m n k modes truth _ _ _ _ _ _
    rw [Prod.ext_iff]
    constructor
    · show 100 * (1 - spnorm m (min k n) (fun i j => truth i j - truth i j) /
        spnorm m (min k n) truth) = 100
      rw [spnorm_sub_self, zero_div]
      norm_num
    · show 100 * (1 - spnorm (2 * modes + 1) k
          (fun i j => pde_pt m n k modes truth i j - pde_pt m n k modes truth i j) /
        spnorm (2 * modes + 1) k (pde_pt m n k modes truth)) = 100
      rw [spnorm_sub_self, zero_div]
      norm_num

/-- Value of the shifted power-spectrum slice for the example column
`(2, 0)`: the cropped entry is `|fft(2,0)[0]|² = 4`. -/
theorem pde_slice_pdeT : pde_slice 2 (fun r => pdeT r 0) 1 = 4 := by
  unfold pde_slice fftshift1
  norm_num
  have hd : dft 2 (fun j => ((pdeT j 0 : ℝ) : ℂ)) 0 = 2 := by
    unfold dft
    norm_num [Finset.sum_range_succ, pdeT]
  rw [hd, Complex.sq_abs]
  simp [Complex.normSq_apply]
  norm_num

/-- Witness for C7 on concrete valid inputs: a 2×1 reconstruction and
1-D PDE forecast on the column `(2,0)`, and a 3×1 ODE forecast on the
all-ones array, all with `prediction = truth`, give the maximal
scores. -/
theorem c7_perfect_prediction_witness :
    reconstruction 2 1 pdeT pdeT = 100 ∧
    ode_forecast 3 1 onesArr onesArr 1 3 = (100, 100) ∧
    pde_forecast 2 1 pdeT pdeT 1 0 = (100, 100) := by
  have hpdeTnorm : spnorm 2 1 pdeT ≠ 0 := by
    apply spnorm_ne_zero (onesVec 1)
    apply euclid_ne_zero (0 : Fin 2)
    rw [mulVecCLM_apply, Fin.sum_univ_one]
    norm_num [pdeT, onesVec]
  have honesnorm : spnorm 3 1 onesArr ≠ 0 := by
    apply spnorm_ne_zero (onesVec 1)
    apply euclid_ne_zero (0 : Fin 3)
    rw [mulVecCLM_apply, Fin.sum_univ_one]
    norm_num [onesArr, onesVec]
  have hpt : spnorm 1 1 (pde_pt 2 1 1 0 pdeT) ≠ 0 := by
    apply spnorm_ne_zero (onesVec 1)
    apply euclid_ne_zero (0 : Fin 1)
    rw [mulVecCLM_apply, Fin.sum_univ_one]
    have hval : pde_pt 2 1 1 0 pdeT 0 0 = Real.log 4 := by
      show Real.log (pde_slice 2 (fun r => pdeT r (1 - (0 + 1))) (2 / 2 - 0 + 0)) =
        Real.log 4
      rw [show pde_slice 2 (fun r => pdeT r (1 - (0 + 1))) (2 / 2 - 0 + 0) =
        pde_slice 2 (fun r => pdeT r 0) 1 from rfl, pde_slice_pdeT]
    simp only [Fin.val_zero]
    rw [hval]
    simp only [onesVec, mul_one]
    exact ne_of_gt (Real.log_pos (by norm_num))
  refine ⟨c7_perfect_prediction.1 2 1 pdeT hpdeTnorm,
    c7_perfect_prediction.2.1 3 1 1 3 onesArr honesnorm (by norm_num),
    c7_perfect_prediction.2.2 2 1 1 0 pdeT hpdeTnorm (le_refl 1) (by norm_num)
      (by norm_num) ?_ hpt⟩
  intro i hi j hj
  have hi0 : i = 0 := by omega
  have hj0 : j = 0 := by omega
  subst hi0
  subst hj0
  rw [show pde_slice 2 (fun r => pdeT r (1 - (0 + 1))) (2 / 2 - 0 + 0) =
    pde_slice 2 (fun r => pdeT r 0) 1 from rfl, pde_slice_pdeT]
  norm_num

end NfSynapse
